import Mathlib

/-!
Verification of the `neat-proc` NEAT implementation.

This file gives a shallow embedding of the parts of the repository that the
claims C1-C10 are about:

* `neat/innovation.py`   — `InnovationRecord`
* `neat/genes.py`        — `Node`, `Link`, their `distance`
* `neat/genomes/genome.py` — `Genome`, the mutation operators, `crossover`,
  `creates_cycle`
* `neat/speciation.py`   — `get_genomes_distance`
* `neat/species.py`      — `Species.update_adjusted_fitness`
* `neat/reproduction.py` — `filter_stagnant_species`, the copy branch of
  `reproduce`

Python `dict`s are modelled as insertion-ordered association lists
(`List (κ × α)`): assignment to an existing key updates in place and keeps
the position, assignment to a fresh key appends, exactly as CPython dicts
behave.  Python floats are modelled as `ℚ`.  Randomness is modelled by
passing the outcome of each draw explicitly: a probability gate
`random.random() < chance` becomes a `Bool`, a `random.choice(xs)` becomes
an index reduced modulo `xs.length`, and a `random.gauss(..)` draw becomes
a `ℚ` argument.
-/

namespace NeatProc

/-- Lookup in an insertion-ordered association list (`dict.get`). -/
def alookup {κ α : Type} [DecidableEq κ] : List (κ × α) → κ → Option α
  | [], _ => none
  | (k, v) :: rest, key => if k = key then some v else alookup rest key

/-- `d[k] = v` on a CPython dict: update in place if the key exists
(keeping its position), otherwise append at the end. -/
def ainsert {κ α : Type} [DecidableEq κ] : List (κ × α) → κ → α → List (κ × α)
  | [], key, v => [(key, v)]
  | (k, w) :: rest, key, v =>
      if k = key then (key, v) :: rest else (k, w) :: ainsert rest key v

/-- `d.pop(k)`: remove the entry with the given key. -/
def aerase {κ α : Type} [DecidableEq κ] : List (κ × α) → κ → List (κ × α)
  | [], _ => []
  | (k, w) :: rest, key => if k = key then rest else (k, w) :: aerase rest key

/-- `list(d.values())` in iteration order. -/
def avalues {κ α : Type} (d : List (κ × α)) : List α := d.map Prod.snd

/-- `list(d.keys())` in iteration order. -/
def akeys {κ α : Type} (d : List (κ × α)) : List κ := d.map Prod.fst

/-- `utils.clamp`: `min(max(value, lower), upper)`, spelled with plain
conditionals (for numbers, Python's `max`/`min` agree with these). -/
def clamp (value lower upper : ℚ) : ℚ :=
  let raised := if value ≤ lower then lower else value
  if upper ≤ raised then upper else raised

/-- `random.choice(xs)` with the drawn position passed in: `none` exactly
when the list is empty (where `random.choice` would raise), otherwise the
element at `idx % xs.length` — every element is reachable as `idx`
varies. -/
def pickIdx {α : Type} (xs : List α) (idx : ℕ) : Option α :=
  xs[idx % xs.length]?

/-! ## `neat/innovation.py` — `InnovationRecord` -/

/-- The innovation registry (`InnovationRecord` in `neat/innovation.py`).
`nodes_record` maps the ID of a split link to the node ID allocated for
that split; `links_record` maps an `(in_node, out_node)` pair to its link
ID. -/
structure InnovationRecord where
  nodes_counter : ℕ
  nodes_record : List (ℕ × ℕ)
  links_counter : ℕ
  links_record : List ((ℕ × ℕ) × ℕ)
  species_counter : ℕ
  genomes_counter : ℕ
  deriving DecidableEq, Repr

namespace InnovationRecord

/-- `InnovationRecord.__init__(inputs, outputs)`: the node counter starts at
`inputs + outputs`, every other counter and record is empty. -/
def init (inputs outputs : ℕ) : InnovationRecord :=
  ⟨inputs + outputs, [], 0, [], 0, 0⟩

/-- `get_node_id(link_to_split)`: return the recorded node ID for this
split if present, otherwise allocate the current counter value, record it
and bump the counter.  Returns the ID together with the updated registry
(the Python method mutates `self`). -/
def get_node_id (r : InnovationRecord) (link_to_split : ℕ) :
    ℕ × InnovationRecord :=
  match alookup r.nodes_record link_to_split with
  | some node_id => (node_id, r)
  | none =>
      let node_id := r.nodes_counter
      (node_id,
        { r with
          nodes_record := ainsert r.nodes_record link_to_split node_id
          nodes_counter := r.nodes_counter + 1 })

/-- `get_link_id(in_node, out_node)`: recorded-or-fresh link ID for the
pair, threading the updated registry. -/
def get_link_id (r : InnovationRecord) (in_node out_node : ℕ) :
    ℕ × InnovationRecord :=
  let link := (in_node, out_node)
  match alookup r.links_record link with
  | some link_id => (link_id, r)
  | none =>
      let link_id := r.links_counter
      (link_id,
        { r with
          links_record := ainsert r.links_record link link_id
          links_counter := r.links_counter + 1 })

/-- `get_species_id()`. -/
def get_species_id (r : InnovationRecord) : ℕ × InnovationRecord :=
  (r.species_counter, { r with species_counter := r.species_counter + 1 })

/-- `get_genome_id()`. -/
def get_genome_id (r : InnovationRecord) : ℕ × InnovationRecord :=
  (r.genomes_counter, { r with genomes_counter := r.genomes_counter + 1 })

end InnovationRecord

/-- One registry operation, result discarded: used to quantify over all
interleaved registry traffic between two calls. -/
inductive InnovOp where
  | getLink (a b : ℕ)
  | getNode (l : ℕ)
  | getSpecies
  | getGenome
  deriving DecidableEq, Repr

/-- Apply one registry operation, keeping only the updated registry. -/
def applyInnovOp (r : InnovationRecord) : InnovOp → InnovationRecord
  | .getLink a b => (r.get_link_id a b).2
  | .getNode l => (r.get_node_id l).2
  | .getSpecies => r.get_species_id.2
  | .getGenome => r.get_genome_id.2

/-- Run a list of registry operations left to right. -/
def runInnovOps (r : InnovationRecord) : List InnovOp → InnovationRecord
  | [] => r
  | op :: ops => runInnovOps (applyInnovOp r op) ops

/-! ## `neat/genes.py` — `NodeType`, `Node`, `Link` -/

/-- `NodeType` (a `StrEnum` in the source). -/
inductive NodeType where
  | input
  | hidden
  | output
  deriving DecidableEq, Repr

/-- `Node` gene.  The aggregation and activation functions are opaque
identifiers compared only for equality, so they are modelled as `ℕ`
(indices into `AggregationFuncs` / `ActivationFuncs`). -/
structure Node where
  id : ℕ
  node_type : NodeType
  bias : ℚ
  response : ℚ
  aggregator : ℕ
  activator : ℕ
  deriving DecidableEq, Repr

/-- `Link` gene. -/
structure Link where
  id : ℕ
  in_node : ℕ
  out_node : ℕ
  weight : ℚ
  enabled : Bool
  frozen : Bool
  deriving DecidableEq, Repr

namespace Node

/-- `Node.distance` (`neat/genes.py`): absolute bias and response
differences plus one per differing activator and aggregator. -/
def distance (n other : Node) : ℚ :=
  let d := |n.bias - other.bias| + |n.response - other.response|
  let d := if n.activator ≠ other.activator then d + 1 else d
  if n.aggregator ≠ other.aggregator then d + 1 else d

end Node

namespace Link

/-- `Link.distance` (`neat/genes.py`): absolute weight difference plus one
per differing `enabled` and `frozen` flag. -/
def distance (l other : Link) : ℚ :=
  let d := |l.weight - other.weight|
  let d := if l.enabled ≠ other.enabled then d + 1 else d
  if l.frozen ≠ other.frozen then d + 1 else d

/-- `Link.simple_link`: the `(in_node, out_node)` pair. -/
def simple_link (l : Link) : ℕ × ℕ := (l.in_node, l.out_node)

/-- `Link.enable()`. -/
def enable (l : Link) : Link := { l with enabled := true }

/-- `Link.disable()`. -/
def disable (l : Link) : Link := { l with enabled := false }

end Link

/-! ## `neat/genomes/genome.py` — `Genome` and its mutation operators -/

/-- The subset of `GenomeParams` the genome operations read.  Probability
gates are modelled by their Boolean outcomes, so the `*_chance` fields are
not needed; the `*_init_mean` / `*_init_stdev` pairs only feed the Gaussian
draws, which are passed explicitly. -/
structure GenomeParams where
  inputs : ℕ
  outputs : ℕ
  bias_min_value : ℚ
  bias_max_value : ℚ
  response_min_value : ℚ
  response_max_value : ℚ
  weight_min_value : ℚ
  weight_max_value : ℚ
  aggregator_default : ℕ
  activator_default : ℕ
  deriving DecidableEq, Repr

/-- A genome: the `innov_record` is shared global state and is threaded
explicitly through every operation instead of being stored in the genome. -/
structure Genome where
  id : ℕ
  fitness : ℚ
  nodes : List (ℕ × Node)
  links : List (ℕ × Link)
  deriving DecidableEq, Repr

namespace Genome

/-- `get_initial_bias`: a Gaussian draw (passed in) clamped to the bias
range. -/
def get_initial_bias (p : GenomeParams) (draw : ℚ) : ℚ :=
  clamp draw p.bias_min_value p.bias_max_value

/-- `get_initial_response`. -/
def get_initial_response (p : GenomeParams) (draw : ℚ) : ℚ :=
  clamp draw p.response_min_value p.response_max_value

/-- `get_default_node_traits` merged into node construction: default
aggregator/activator, random initial bias and response (`draws`). -/
def default_node (p : GenomeParams) (id : ℕ) (node_type : NodeType)
    (draws : ℚ × ℚ) : Node :=
  ⟨id, node_type, get_initial_bias p draws.1, get_initial_response p draws.2,
    p.aggregator_default, p.activator_default⟩

/-- `create_new_link(in_node, out_node, weight)`: the link ID comes from
the shared registry, the link starts enabled and not frozen
(`LinkTraits` defaults). -/
def create_new_link (innov : InnovationRecord) (in_node out_node : ℕ)
    (weight : ℚ) : Link × InnovationRecord :=
  let (id, innov') := innov.get_link_id in_node out_node
  (⟨id, in_node, out_node, weight, true, false⟩, innov')

/-- `create_new_node(link_to_split)`: the node ID comes from the shared
registry via `get_node_id`, the traits are fresh defaults. -/
def create_new_node (p : GenomeParams) (innov : InnovationRecord)
    (link_to_split : ℕ) (draws : ℚ × ℚ) : Node × InnovationRecord :=
  let (id, innov') := innov.get_node_id link_to_split
  (default_node p id NodeType.hidden draws, innov')

/-- `initialize_default_genome`: `inputs` input nodes with IDs
`0..inputs-1`, `outputs` output nodes with IDs `inputs..inputs+outputs-1`,
and one link from every input to every output (weight 1).  `traitDraws`
supplies the Gaussian draws for each node's initial bias and response. -/
def initialize_default_genome (p : GenomeParams) (id : ℕ)
    (innov : InnovationRecord) (traitDraws : ℕ → ℚ × ℚ) :
    Genome × InnovationRecord :=
  let inputIds := List.range p.inputs
  let outputIds := (List.range p.outputs).map (fun i => p.inputs + i)
  let input_nodes := inputIds.map
    (fun i => (i, default_node p i NodeType.input (traitDraws i)))
  let output_nodes := outputIds.map
    (fun i => (i, default_node p i NodeType.output (traitDraws i)))
  let step := fun (acc : List (ℕ × Link) × InnovationRecord)
      (pair : ℕ × ℕ) =>
    let (link, innov') := create_new_link acc.2 pair.1 pair.2 1
    (ainsert acc.1 link.id link, innov')
  let pairs := inputIds.flatMap (fun i => outputIds.map (fun o => (i, o)))
  let (links, innov') := pairs.foldl step ([], innov)
  (⟨id, 0, input_nodes ++ output_nodes, links⟩, innov')

/-- `get_nodes_by_type`. -/
def get_nodes_by_type (g : Genome) (t : NodeType) : List Node :=
  (avalues g.nodes).filter (fun n => n.node_type = t)

end Genome

/-- One pass of the `while True` body of `creates_cycle`: scan the
connections in order; for every `(a, b)` with `a` visited and `b` not,
return true immediately if `b = i`, otherwise mark `b` visited.  Returns
`(visited, num_added, found)`. -/
def cycleScan (i : ℕ) : List (ℕ × ℕ) → List ℕ → ℕ → (List ℕ × ℕ × Bool)
  | [], visited, num_added => (visited, num_added, false)
  | (a, b) :: rest, visited, num_added =>
      if a ∈ visited ∧ b ∉ visited then
        if b = i then (visited, num_added, true)
        else cycleScan i rest (visited ++ [b]) (num_added + 1)
      else cycleScan i rest visited num_added

/-- The `while True` loop of `creates_cycle`, with fuel.  Every productive
iteration adds at least one node to `visited`, and only nodes appearing as
a connection target can ever be added, so `connections.length + 1`
iterations always suffice; on fuel exhaustion (unreachable with that fuel)
the function answers `false`, matching the loop's only non-`True` exit. -/
def cycleLoop (connections : List (ℕ × ℕ)) (i : ℕ) :
    ℕ → List ℕ → Bool
  | 0, _ => false
  | fuel + 1, visited =>
      let (visited', num_added, found) := cycleScan i connections visited 0
      if found then true
      else if num_added = 0 then false
      else cycleLoop connections i fuel visited'

/-- `creates_cycle(connections, test)` (`neat/genomes/genome.py`): true iff
adding the directed edge `test` to the acyclic graph `connections` would
create a cycle. -/
def creates_cycle (connections : List (ℕ × ℕ)) (test : ℕ × ℕ) : Bool :=
  let (i, o) := test
  if i = o then true
  else cycleLoop connections i (connections.length + 1) [o]

/-! ### Randomness records for the mutation operators

Each field is the outcome of one `random` call in the source: gates are
the Booleans `random.random() < chance`, indices are `random.choice`
positions (reduced modulo the list length), and `ℚ` fields are Gaussian
draws. -/

/-- Draw outcomes for `Genome.mutate_node` on a single node. -/
structure NodeRand where
  biasMutGate : Bool
  biasDraw : ℚ
  biasReplaceGate : Bool
  biasReplaceDraw : ℚ
  respMutGate : Bool
  respDraw : ℚ
  respReplaceGate : Bool
  respReplaceDraw : ℚ
  deriving DecidableEq, Repr

/-- The all-gates-off draw record: the node is left unchanged. -/
def NodeRand.none : NodeRand := ⟨false, 0, false, 0, false, 0, false, 0⟩

/-- Draw outcomes for `Genome.mutate_link` on a single link.  `draw`
stands for `randon_sign() * random.random() * weight_mutation_power`; the
severe gate doubles the power, i.e. doubles the draw. -/
structure LinkRand where
  mutGate : Bool
  severeGate : Bool
  draw : ℚ
  deriving DecidableEq, Repr

/-- The gate-off draw record: the link is left unchanged. -/
def LinkRand.none : LinkRand := ⟨false, false, 0⟩

/-- Draw outcomes for one `Genome.mutate()` pass.  The defaults are the
all-gates-off outcomes. -/
structure MutateRand where
  delNodeGate : Bool := false
  delNodeIdx : ℕ := 0
  addNodeGate : Bool := false
  addNodeIdx : ℕ := 0
  addNodeDraws : ℚ × ℚ := (0, 0)
  addLinkGate : Bool := false
  addLinkInIdx : ℕ := 0
  addLinkOutIdx : ℕ := 0
  delLinkGate : Bool := false
  delLinkIdx : ℕ := 0
  toggleGate : Bool := false
  toggleIdx : ℕ := 0
  nodeRands : List NodeRand := []
  linkRands : List LinkRand := []
  deriving DecidableEq, Repr

namespace Genome

/-- The body of `mutate_add_node` once the link to split is chosen:
disable it (in place, i.e. at its key), allocate the split node via
`get_node_id(link.id)`, and add the two links `in(L) → new` (weight 1) and
`new → out(L)` (weight `L.weight`). -/
def splitLink (p : GenomeParams) (g : Genome) (innov : InnovationRecord)
    (link_to_split : Link) (draws : ℚ × ℚ) : Genome × InnovationRecord :=
  let disabled := link_to_split.disable
  let links₁ := ainsert g.links link_to_split.id disabled
  let (node, innov₁) := create_new_node p innov link_to_split.id draws
  let nodes₁ := ainsert g.nodes node.id node
  let (first_link, innov₂) :=
    create_new_link innov₁ link_to_split.in_node node.id 1
  let links₂ := ainsert links₁ first_link.id first_link
  let (second_link, innov₃) :=
    create_new_link innov₂ node.id link_to_split.out_node
      link_to_split.weight
  let links₃ := ainsert links₂ second_link.id second_link
  ({ g with nodes := nodes₁, links := links₃ }, innov₃)

/-- `mutate_add_node`: if the genome has links, pick a random link
(`get_random_value` draws from *all* links, enabled or not) and split
it. -/
def mutate_add_node (p : GenomeParams) (g : Genome)
    (innov : InnovationRecord) (idx : ℕ) (draws : ℚ × ℚ) :
    Genome × InnovationRecord :=
  match pickIdx (avalues g.links) idx with
  | none => (g, innov)
  | some link_to_split => splitLink p g innov link_to_split draws

/-- `mutate_delete_node`: pick a random hidden node, drop every link whose
`simple_link` mentions it, then drop the node itself.  No-op when there is
no hidden node. -/
def mutate_delete_node (g : Genome) (idx : ℕ) : Genome :=
  match pickIdx (get_nodes_by_type g NodeType.hidden) idx with
  | none => g
  | some node =>
      let links' := g.links.filter
        (fun kl => ¬(node.id = kl.2.in_node ∨ node.id = kl.2.out_node))
      { g with links := links', nodes := aerase g.nodes node.id }

/-- `mutate_add_link`: pick a random non-output node as source and a
random non-input node as target; reject self-loops, pairs already realised
by *any* existing link (enabled or disabled), and pairs for which
`creates_cycle` over *all* of the genome's links answers true; otherwise
add a fresh enabled link of weight 1.  (With a non-degenerate genome both
candidate lists are non-empty; on an empty list `random.choice` would
raise, modelled here as a no-op.) -/
def mutate_add_link (g : Genome) (innov : InnovationRecord)
    (inIdx outIdx : ℕ) : Genome × InnovationRecord :=
  let in_nodes := (avalues g.nodes).filter
    (fun n => n.node_type ≠ NodeType.output)
  let out_nodes := (avalues g.nodes).filter
    (fun n => n.node_type ≠ NodeType.input)
  match pickIdx in_nodes inIdx, pickIdx out_nodes outIdx with
  | none, _ => (g, innov)
  | _, none => (g, innov)
  | some in_node, some out_node =>
      if in_node = out_node then (g, innov)
      else if (avalues g.links).any
          (fun l => l.simple_link = (in_node.id, out_node.id)) then
        (g, innov)
      else if creates_cycle ((avalues g.links).map Link.simple_link)
          (in_node.id, out_node.id) then
        (g, innov)
      else
        let (link, innov') := create_new_link innov in_node.id out_node.id 1
        ({ g with links := ainsert g.links link.id link }, innov')

/-- `mutate_delete_link`: remove a random link (no-op when there are
none). -/
def mutate_delete_link (g : Genome) (idx : ℕ) : Genome :=
  match pickIdx (avalues g.links) idx with
  | none => g
  | some link => { g with links := aerase g.links link.id }

/-- `mutate_toggle_enable`: pick a random link; if it is disabled, enable
it; if it is enabled, disable it only when at least two links share its
`in_node` (the scan disables as soon as the running count reaches 2, which
is equivalent to the total count being ≥ 2). -/
def mutate_toggle_enable (g : Genome) (idx : ℕ) : Genome :=
  match pickIdx (avalues g.links) idx with
  | none => g
  | some link =>
      if ¬link.enabled then
        { g with links := ainsert g.links link.id link.enable }
      else
        let count := ((avalues g.links).filter
          (fun l => l.in_node = link.in_node)).length
        if 2 ≤ count then
          { g with links := ainsert g.links link.id link.disable }
        else g

/-- `mutate_node`: jitter-then-maybe-replace the bias, then the response,
each step gated and clamped exactly as in the source. -/
def mutate_node (p : GenomeParams) (n : Node) (r : NodeRand) : Node :=
  let bias₁ := if r.biasMutGate then
      clamp (n.bias + r.biasDraw) p.bias_min_value p.bias_max_value
    else n.bias
  let bias₂ := if r.biasReplaceGate then get_initial_bias p r.biasReplaceDraw
    else bias₁
  let resp₁ := if r.respMutGate then
      clamp (n.response + r.respDraw) p.response_min_value
        p.response_max_value
    else n.response
  let resp₂ := if r.respReplaceGate then
      get_initial_response p r.respReplaceDraw
    else resp₁
  { n with bias := bias₂, response := resp₂ }

/-- `mutate_link`: frozen links are untouched; otherwise, when the weight
gate fires, add the (possibly severity-doubled) draw and clamp. -/
def mutate_link (p : GenomeParams) (l : Link) (r : LinkRand) : Link :=
  if l.frozen then l
  else if ¬r.mutGate then l
  else
    let delta := if r.severeGate then 2 * r.draw else r.draw
    let w := clamp (l.weight + delta) p.weight_min_value p.weight_max_value
    { l with weight := w }

/-- `Genome.mutate()` (`neat/genomes/genome.py` lines 107-127): the five
structural mutations in source order — delete node, add node, add link,
delete link, toggle enable — each gated by its own probability draw, then
attribute mutation of every node and every link. -/
def mutate (p : GenomeParams) (g : Genome) (innov : InnovationRecord)
    (r : MutateRand) : Genome × InnovationRecord :=
  let g₁ := if r.delNodeGate then mutate_delete_node g r.delNodeIdx else g
  let (g₂, innov₂) := if r.addNodeGate then
      mutate_add_node p g₁ innov r.addNodeIdx r.addNodeDraws
    else (g₁, innov)
  let (g₃, innov₃) := if r.addLinkGate then
      mutate_add_link g₂ innov₂ r.addLinkInIdx r.addLinkOutIdx
    else (g₂, innov₂)
  let g₄ := if r.delLinkGate then mutate_delete_link g₃ r.delLinkIdx else g₃
  let g₅ := if r.toggleGate then mutate_toggle_enable g₄ r.toggleIdx else g₄
  let nodes' := g₅.nodes.enum.map
    (fun p' => (p'.2.1, mutate_node p p'.2.2 (r.nodeRands.getD p'.1 .none)))
  let links' := g₅.links.enum.map
    (fun p' => (p'.2.1, mutate_link p p'.2.2 (r.linkRands.getD p'.1 .none)))
  ({ g₅ with nodes := nodes', links := links' }, innov₃)

end Genome

/-! ## Crossover (`Gene.crossover` in `neat/genes.py`,
`Genome.crossover` in `neat/genomes/genome.py`) -/

namespace Link

/-- `Gene.crossover` for links: each annotated attribute — in declaration
order `id, in_node, out_node, weight, enabled, frozen` — is inherited from
`self` or `other` with equal probability; `pick i = true` means attribute
`i` comes from `self`. -/
def crossover (l other : Link) (pick : ℕ → Bool) : Link :=
  ⟨if pick 0 then l.id else other.id,
   if pick 1 then l.in_node else other.in_node,
   if pick 2 then l.out_node else other.out_node,
   if pick 3 then l.weight else other.weight,
   if pick 4 then l.enabled else other.enabled,
   if pick 5 then l.frozen else other.frozen⟩

end Link

namespace Node

/-- `Gene.crossover` for nodes: attribute order
`id, node_type, bias, response, aggregator, activator`. -/
def crossover (n other : Node) (pick : ℕ → Bool) : Node :=
  ⟨if pick 0 then n.id else other.id,
   if pick 1 then n.node_type else other.node_type,
   if pick 2 then n.bias else other.bias,
   if pick 3 then n.response else other.response,
   if pick 4 then n.aggregator else other.aggregator,
   if pick 5 then n.activator else other.activator⟩

end Node

namespace Genome

/-- The primary parent of `Genome.crossover`: the receiver `self` unless
`self.fitness < other.fitness` — so ties go to the receiver. -/
def primaryParent (a other : Genome) : Genome :=
  if a.fitness < other.fitness then other else a

/-- The secondary parent of `Genome.crossover`. -/
def secondaryParent (a other : Genome) : Genome :=
  if a.fitness < other.fitness then a else other

/-- The gene-map fold of `Genome.crossover`: for every key of the primary
parent, store under that key the combination with the secondary's
homologous gene when present, otherwise a copy of the primary's gene; the
secondary's private genes are never visited. -/
def crossoverMap {γ : Type} (combine : γ → γ → ℕ → γ)
    (primary secondary : List (ℕ × γ)) : List (ℕ × γ) :=
  primary.foldl
    (fun acc kv =>
      ainsert acc kv.1
        (match alookup secondary kv.1 with
         | some g2 => combine kv.2 g2 kv.1
         | none => kv.2))
    []

/-- `Genome.crossover(self, other)`: the fitter parent is primary; links
and nodes are built from the primary's maps; the child gets a fresh
genome ID from the shared registry.  `Genome.__init__` falls back to
`initialize_default_genome` when both maps are empty, which needs fresh
trait draws (`traitDraws`).  `pickL`/`pickN` are the per-gene attribute
coin flips of `Gene.crossover`. -/
def crossover (p : GenomeParams) (a other : Genome)
    (innov : InnovationRecord) (pickL pickN : ℕ → ℕ → Bool)
    (traitDraws : ℕ → ℚ × ℚ) : Genome × InnovationRecord :=
  let primary := primaryParent a other
  let secondary := secondaryParent a other
  let links := crossoverMap
    (fun l1 l2 k => l1.crossover l2 (pickL k)) primary.links
    secondary.links
  let nodes := crossoverMap
    (fun n1 n2 k => n1.crossover n2 (pickN k)) primary.nodes
    secondary.nodes
  let (id, innov') := innov.get_genome_id
  if nodes = [] ∧ links = [] then
    initialize_default_genome p id innov' traitDraws
  else
    (⟨id, 0, nodes, links⟩, innov')

end Genome

/-! ## `neat/speciation.py` — `get_genomes_distance` -/

/-- The speciation parameters the distance function reads. -/
structure SpeciationParams where
  compatibility_disjoint_coefficient : ℚ
  deriving DecidableEq, Repr

/-- The loop of `get_genomes_distance` over one gene map: accumulates the
summed matched-gene distance, the count of genes of `d1` missing from
`d2`, and the count of common genes. -/
def distanceScan {γ : Type} (dist : γ → γ → ℚ)
    (d1 d2 : List (ℕ × γ)) : ℚ × ℕ × ℕ :=
  d1.foldl
    (fun acc kv =>
      match alookup d2 kv.1 with
      | some g2 => (acc.1 + dist kv.2 g2, acc.2.1, acc.2.2 + 1)
      | none => (acc.1, acc.2.1 + 1, acc.2.2))
    (0, 0, 0)

/-- The per-gene-set distance of `get_genomes_distance`: zero when both
maps are empty, otherwise the matched sum *plus* the disjoint term, all
divided by the larger map size. -/
def geneSetDistance {γ : Type} (dist : γ → γ → ℚ)
    (d1 d2 : List (ℕ × γ)) (coefficient : ℚ) : ℚ :=
  if d1.isEmpty ∧ d2.isEmpty then 0
  else
    let (matched, disjoint1, common) := distanceScan dist d1 d2
    let disjoint : ℚ := disjoint1 + ((d2.length : ℚ) - common)
    let maxSize : ℚ := max d1.length d2.length
    (matched + coefficient * disjoint) / maxSize

/-- `get_genomes_distance(genome1, genome2, params)`
(`neat/speciation.py`): the node-set distance plus the link-set
distance. -/
def get_genomes_distance (genome1 genome2 : Genome)
    (params : SpeciationParams) : ℚ :=
  geneSetDistance Node.distance genome1.nodes genome2.nodes
      params.compatibility_disjoint_coefficient
    + geneSetDistance Link.distance genome1.links genome2.links
      params.compatibility_disjoint_coefficient

/-! ## `neat/species.py` — `Species` -/

/-- `SpeciesInfo`. -/
structure SpeciesInfo where
  id : ℕ
  representative : Genome
  age : ℕ
  previous_fitness : ℚ
  stagnant : ℕ
  deriving DecidableEq, Repr

/-- `Species`: its info record plus its genome list. -/
structure Species where
  info : SpeciesInfo
  genomes : List Genome
  deriving DecidableEq, Repr

namespace Species

/-- `Species.size`. -/
def size (s : Species) : ℕ := s.genomes.length

/-- The `Species.fitness` property reads `info.previous_fitness`. -/
def fitness (s : Species) : ℚ := s.info.previous_fitness

/-- The `Species.stagnant` property. -/
def stagnant (s : Species) : ℕ := s.info.stagnant

/-- `Species.update_adjusted_fitness`: the new species fitness is
`Σ genome.fitness / size²` (0 for an empty species); the stagnant counter
increments when the new value is strictly below the previous recorded one
and resets to 0 otherwise; the new value is then recorded.  Returns the
new fitness and the updated species. -/
def update_adjusted_fitness (s : Species) : ℚ × Species :=
  let fitness_sum := (s.genomes.map Genome.fitness).sum
  let fitness : ℚ :=
    if s.genomes = [] then 0 else fitness_sum / ((s.size : ℚ) ^ 2)
  let stagnant' := if fitness < s.fitness then s.info.stagnant + 1 else 0
  (fitness,
    { s with info :=
      { s.info with previous_fitness := fitness, stagnant := stagnant' } })

end Species

/-! ## `neat/reproduction.py` — `filter_stagnant_species` and the copy
branch of `reproduce` -/

/-- A raised Python exception: its class name and message. -/
structure NeatError where
  className : String
  message : String
  deriving DecidableEq, Repr

/-- The exception raised by `filter_stagnant_species` when no species
survives: the source raises `RuntimeError(...)` (the repository defines no
`ExtinctionError` class). -/
def extinctionRaise : NeatError :=
  ⟨"RuntimeError",
   "There are no remaining species after evolution. Consider increasing the compatibility threshold."⟩

/-- `filter_stagnant_species(species_set, params, reporter)`: keep, in
order, exactly the species with `stagnant ≤ max_stagnation`; raise when
none remains.  (The reporter call is a pure logging side effect.) -/
def filter_stagnant_species (species_set : List Species)
    (max_stagnation : ℕ) : Except NeatError (List Species) :=
  let remaining := species_set.filter
    (fun s => ¬(max_stagnation < s.stagnant))
  if remaining = [] then .error extinctionRaise else .ok remaining

/-! ## Object identity for the copy branch of `reproduce` (claim C3)

`reproduce` builds the non-crossover child as
`Genome(id, innov, copy.copy(parent1.nodes), copy.copy(parent1.links))`.
`copy.copy` on a `dict` copies only the dict itself: the `Node` and `Link`
objects inside are the same objects.  To express sharing, genomes here
hold *references* (indices into a heap of gene objects) and attribute
mutation writes through the references. -/

/-- The heap of live gene objects. -/
structure GeneHeap where
  nodeObjs : List Node
  linkObjs : List Link
  deriving DecidableEq, Repr

/-- A genome whose gene maps hold heap references instead of values. -/
structure RefGenome where
  id : ℕ
  nodes : List (ℕ × ℕ)
  links : List (ℕ × ℕ)
  deriving DecidableEq, Repr

/-- The non-crossover branch of `reproduce`: a fresh genome ID and
`copy.copy` of the two dicts — fresh association lists containing the very
same references, so the gene objects are shared with the parent. -/
def reproduceCopyChild (parent : RefGenome) (innov : InnovationRecord) :
    RefGenome × InnovationRecord :=
  let (id, innov') := innov.get_genome_id
  (⟨id, parent.nodes, parent.links⟩, innov')

/-- The attribute-mutation phase of `child.mutate()` on the heap model:
`mutate_node` / `mutate_link` update each gene object in place, i.e. write
the mutated value back through the reference. -/
def heapMutateAttrs (p : GenomeParams) (heap : GeneHeap) (g : RefGenome)
    (nodeRands : List NodeRand) (linkRands : List LinkRand) : GeneHeap :=
  let nodeObjs := g.nodes.enum.foldl
    (fun acc ir =>
      match acc[ir.2.2]? with
      | some n =>
          acc.set ir.2.2 (Genome.mutate_node p n (nodeRands.getD ir.1 .none))
      | none => acc)
    heap.nodeObjs
  let linkObjs := g.links.enum.foldl
    (fun acc ir =>
      match acc[ir.2.2]? with
      | some l =>
          acc.set ir.2.2 (Genome.mutate_link p l (linkRands.getD ir.1 .none))
      | none => acc)
    heap.linkObjs
  ⟨nodeObjs, linkObjs⟩

/-- Read a node attribute of a genome through its reference. -/
def readNode (heap : GeneHeap) (g : RefGenome) (key : ℕ) : Option Node :=
  match alookup g.nodes key with
  | some addr => heap.nodeObjs[addr]?
  | none => none

/-! ## Gated mutation steps

The five structural mutations of `Genome.mutate()` as gated
state-transformers, so the order in which `mutate` applies them can be
stated as a composition. -/

namespace Genome

/-- The delete-node step, gated by its probability draw. -/
def gatedDelNode (r : MutateRand) (gi : Genome × InnovationRecord) :
    Genome × InnovationRecord :=
  (if r.delNodeGate then mutate_delete_node gi.1 r.delNodeIdx else gi.1,
   gi.2)

/-- The add-node step, gated. -/
def gatedAddNode (p : GenomeParams) (r : MutateRand)
    (gi : Genome × InnovationRecord) : Genome × InnovationRecord :=
  if r.addNodeGate then
    mutate_add_node p gi.1 gi.2 r.addNodeIdx r.addNodeDraws
  else gi

/-- The add-link step, gated. -/
def gatedAddLink (r : MutateRand) (gi : Genome × InnovationRecord) :
    Genome × InnovationRecord :=
  if r.addLinkGate then
    mutate_add_link gi.1 gi.2 r.addLinkInIdx r.addLinkOutIdx
  else gi

/-- The delete-link step, gated. -/
def gatedDelLink (r : MutateRand) (gi : Genome × InnovationRecord) :
    Genome × InnovationRecord :=
  (if r.delLinkGate then mutate_delete_link gi.1 r.delLinkIdx else gi.1,
   gi.2)

/-- The toggle-enable step, gated. -/
def gatedToggle (r : MutateRand) (gi : Genome × InnovationRecord) :
    Genome × InnovationRecord :=
  (if r.toggleGate then mutate_toggle_enable gi.1 r.toggleIdx else gi.1,
   gi.2)

/-- The attribute-mutation phase: `mutate_node` on every node, then
`mutate_link` on every link. -/
def attrPass (p : GenomeParams) (r : MutateRand)
    (gi : Genome × InnovationRecord) : Genome × InnovationRecord :=
  let nodes' := gi.1.nodes.enum.map
    (fun p' => (p'.2.1, mutate_node p p'.2.2 (r.nodeRands.getD p'.1 .none)))
  let links' := gi.1.links.enum.map
    (fun p' => (p'.2.1, mutate_link p p'.2.2 (r.linkRands.getD p'.1 .none)))
  ({ gi.1 with nodes := nodes', links := links' }, gi.2)

/-- The mutation pass in the order the spec describes it: add node first,
delete node second, then add link, delete link, toggle enable, attribute
mutation.  (Claim-side definition for C8; `mutate` itself is the code's
order.) -/
def mutateClaimedOrder (p : GenomeParams) (g : Genome)
    (innov : InnovationRecord) (r : MutateRand) :
    Genome × InnovationRecord :=
  attrPass p r (gatedToggle r (gatedDelLink r (gatedAddLink r
    (gatedDelNode r (gatedAddNode p r (g, innov))))))

/-- The add-node mutation as the spec describes it: the split link is
drawn uniformly from the *enabled* links only (claim-side definition for
C7; `mutate_add_node` draws from all links). -/
def addNodeEnabledOnly (p : GenomeParams) (g : Genome)
    (innov : InnovationRecord) (idx : ℕ) (draws : ℚ × ℚ) :
    Genome × InnovationRecord :=
  match pickIdx ((avalues g.links).filter Link.enabled) idx with
  | none => (g, innov)
  | some link_to_split => splitLink p g innov link_to_split draws

end Genome

/-! ## Claim-side genome distance (C5)

The spec's formula: per gene set, the sum over matched gene IDs of the
per-attribute differences, plus `coefficient · disjoint / max(sizes)`,
with *only the disjoint term* divided by the larger set size. -/

/-- Spec wording of the matched-node contribution:
`|bias₁−bias₂| + |response₁−response₂| + 1·[activator differs]
+ 1·[aggregator differs]`. -/
def nodeAttrDistance (n1 n2 : Node) : ℚ :=
  |n1.bias - n2.bias| + |n1.response - n2.response|
    + (if n1.activator ≠ n2.activator then 1 else 0)
    + (if n1.aggregator ≠ n2.aggregator then 1 else 0)

/-- Spec wording of the matched-link contribution:
`|weight₁−weight₂| + 1·[enabled differs] + 1·[frozen differs]`. -/
def linkAttrDistance (l1 l2 : Link) : ℚ :=
  |l1.weight - l2.weight|
    + (if l1.enabled ≠ l2.enabled then 1 else 0)
    + (if l1.frozen ≠ l2.frozen then 1 else 0)

/-- Sum over matched gene IDs of the per-gene distances. -/
def matchedSum {γ : Type} (dist : γ → γ → ℚ) (d1 d2 : List (ℕ × γ)) : ℚ :=
  (d1.map (fun kv =>
    match alookup d2 kv.1 with
    | some g2 => dist kv.2 g2
    | none => 0)).sum

/-- Number of genes present in exactly one of the two maps. -/
def disjointCount {γ : Type} (d1 d2 : List (ℕ × γ)) : ℕ :=
  (d1.filter (fun kv => (alookup d2 kv.1).isNone)).length
    + (d2.filter (fun kv => (alookup d1 kv.1).isNone)).length

/-- The claim's per-set distance: matched sum plus
`coefficient · disjoint / max(sizes)` — only the disjoint term divided. -/
def claimGeneSetDistance {γ : Type} (dist : γ → γ → ℚ)
    (d1 d2 : List (ℕ × γ)) (coefficient : ℚ) : ℚ :=
  matchedSum dist d1 d2
    + coefficient * disjointCount d1 d2 / max (d1.length : ℚ) d2.length

/-- The claim's genome distance: claim-side node distance plus claim-side
link distance. -/
def claimGenomesDistance (genome1 genome2 : Genome)
    (params : SpeciationParams) : ℚ :=
  claimGeneSetDistance nodeAttrDistance genome1.nodes genome2.nodes
      params.compatibility_disjoint_coefficient
    + claimGeneSetDistance linkAttrDistance genome1.links genome2.links
      params.compatibility_disjoint_coefficient

/-- The amended per-set distance: the matched sum *and* the disjoint term
together divided by the larger set size (zero when both sets are
empty). -/
def amendedGeneSetDistance {γ : Type} (dist : γ → γ → ℚ)
    (d1 d2 : List (ℕ × γ)) (coefficient : ℚ) : ℚ :=
  if d1.isEmpty ∧ d2.isEmpty then 0
  else (matchedSum dist d1 d2 + coefficient * disjointCount d1 d2)
    / max (d1.length : ℚ) d2.length

/-! ## Acyclicity of the enabled-link subgraph (C2) -/

/-- The `(in_node, out_node)` pairs of the enabled links of a genome. -/
def enabledEdges (g : Genome) : List (ℕ × ℕ) :=
  ((avalues g.links).filter Link.enabled).map Link.simple_link

/-- One elimination round: keep only the edges whose source still has an
incoming edge.  A non-empty edge list in which no edge can be removed is
cyclic. -/
def elimStep (edges : List (ℕ × ℕ)) : List (ℕ × ℕ) :=
  edges.filter (fun e => (edges.map Prod.snd).contains e.1)

/-- Fueled topological elimination. -/
def acyclicFuel : ℕ → List (ℕ × ℕ) → Bool
  | 0, edges => edges.isEmpty
  | fuel + 1, edges =>
      if edges.isEmpty then true
      else
        let edges' := elimStep edges
        if edges'.length = edges.length then false
        else acyclicFuel fuel edges'

/-- Decides whether a directed edge list is acyclic: every elimination
round removes at least one edge or stops, so `edges.length` rounds
suffice. -/
def isAcyclic (edges : List (ℕ × ℕ)) : Bool :=
  acyclicFuel edges.length edges

/-! ## Concrete scenario: a 1-input/1-output population

`testParams` matches the shipped configuration shape: one input, one
output, wide clamping ranges.  All Gaussian draws are taken to be 0. -/

/-- Parameters of the concrete scenarios. -/
def testParams : GenomeParams := ⟨1, 1, -30, 30, -30, 30, -30, 30, 0, 0⟩

/-- All-zero Gaussian draws for initial node traits. -/
def zeroDraws : ℕ → ℚ × ℚ := fun _ => (0, 0)

/-- The default genome of a fresh 1-input/1-output population, together
with the registry state after its construction: node 0 (input), node 1
(output), link 0 : 0 → 1 of weight 1. -/
def startState : Genome × InnovationRecord :=
  let innov := InnovationRecord.init 1 1
  let (gid, innov') := innov.get_genome_id
  Genome.initialize_default_genome testParams gid innov' zeroDraws

/-- Mutation pass 1: add-node fires and splits link 0 (`0 → 1`). -/
def c2step1 : Genome × InnovationRecord :=
  Genome.mutate testParams startState.1 startState.2
    { addNodeGate := true, addNodeIdx := 0 }

/-- Mutation pass 2: add-node fires and splits link 2 (`2 → 1`). -/
def c2step2 : Genome × InnovationRecord :=
  Genome.mutate testParams c2step1.1 c2step1.2
    { addNodeGate := true, addNodeIdx := 2 }

/-- Mutation pass 3: delete-link fires and removes link 3 (`2 → 3`). -/
def c2step3 : Genome × InnovationRecord :=
  Genome.mutate testParams c2step2.1 c2step2.2
    { delLinkGate := true, delLinkIdx := 3 }

/-- Mutation pass 4: add-link fires and adds `3 → 2` (no cycle among the
existing links, disabled ones included). -/
def c2step4 : Genome × InnovationRecord :=
  Genome.mutate testParams c2step3.1 c2step3.2
    { addLinkGate := true, addLinkInIdx := 2, addLinkOutIdx := 1 }

/-- Mutation pass 5: add-node fires and splits link 2 (`2 → 1`) *again* —
it is disabled, but `mutate_add_node` draws from all links.  The registry
returns the previously allocated node 3 and link IDs 3 and 4, so the edge
`2 → 3` deleted in pass 3 is re-added with no cycle check. -/
def c2step5 : Genome × InnovationRecord :=
  Genome.mutate testParams c2step4.1 c2step4.2
    { addNodeGate := true, addNodeIdx := 2 }

/-! ## Association-list lemmas -/

theorem alookup_ainsert {κ α : Type} [DecidableEq κ] (d : List (κ × α))
    (k : κ) (v : α) (key : κ) :
    alookup (ainsert d k v) key = if k = key then some v else alookup d key := by
  induction d with
  | nil => simp [ainsert, alookup]
  | cons hd tl ih =>
      rcases hd with ⟨k', v'⟩
      by_cases h1 : k' = k
      · subst h1
        simp only [ainsert, if_pos rfl, alookup]
        split_ifs <;> rfl
      · simp only [ainsert, if_neg h1, alookup, ih]
        split_ifs <;> simp_all

theorem alookup_mem {κ α : Type} [DecidableEq κ] {d : List (κ × α)}
    {key : κ} {v : α} (h : alookup d key = some v) : (key, v) ∈ d := by
  induction d with
  | nil => simp [alookup] at h
  | cons hd tl ih =>
      rcases hd with ⟨k', v'⟩
      simp only [alookup] at h
      by_cases hk : k' = key
      · rw [if_pos hk] at h
        subst hk
        exact List.mem_cons.mpr (Or.inl (by simpa using h.symm))
      · rw [if_neg hk] at h
        exact List.mem_cons.mpr (Or.inr (ih h))

theorem mem_ainsert {κ α : Type} [DecidableEq κ] {d : List (κ × α)}
    {k : κ} {v : α} {x : κ × α} (h : x ∈ ainsert d k v) :
    x = (k, v) ∨ x ∈ d := by
  induction d with
  | nil => simpa [ainsert] using h
  | cons hd tl ih =>
      rcases hd with ⟨k', v'⟩
      by_cases h1 : k' = k
      · subst h1
        simp only [ainsert, if_pos rfl] at h
        rcases List.mem_cons.mp h with h2 | h2
        · exact Or.inl h2
        · exact Or.inr (List.mem_cons.mpr (Or.inr h2))
      · simp only [ainsert, if_neg h1] at h
        rcases List.mem_cons.mp h with h2 | h2
        · exact Or.inr (List.mem_cons.mpr (Or.inl h2))
        · rcases ih h2 with h3 | h3
          · exact Or.inl h3
          · exact Or.inr (List.mem_cons.mpr (Or.inr h3))

theorem akeys_ainsert_not_mem {κ α : Type} [DecidableEq κ]
    {d : List (κ × α)} {k : κ} (v : α) (h : k ∉ akeys d) :
    akeys (ainsert d k v) = akeys d ++ [k] := by
  induction d with
  | nil => simp [ainsert, akeys]
  | cons hd tl ih =>
      rcases hd with ⟨k', v'⟩
      simp only [akeys, List.map_cons, List.mem_cons] at h
      push_neg at h
      simp only [ainsert, if_neg (Ne.symm h.1), akeys, List.map_cons,
        List.cons_append, List.cons.injEq, true_and]
      simpa [akeys] using ih h.2

theorem akeys_ainsert_mem {κ α : Type} [DecidableEq κ]
    {d : List (κ × α)} {k : κ} (v : α) (h : k ∈ akeys d) :
    akeys (ainsert d k v) = akeys d := by
  induction d with
  | nil => simp [akeys] at h
  | cons hd tl ih =>
      rcases hd with ⟨k', v'⟩
      by_cases h1 : k' = k
      · subst h1
        simp [ainsert, akeys]
      · simp only [akeys, List.map_cons, List.mem_cons] at h
        rcases h with h2 | h2
        · exact absurd h2.symm h1
        · simp only [ainsert, if_neg h1, akeys, List.map_cons,
            List.cons.injEq, true_and]
          exact ih h2

theorem length_ainsert_mem {κ α : Type} [DecidableEq κ]
    {d : List (κ × α)} {k : κ} (v : α) (h : k ∈ akeys d) :
    (ainsert d k v).length = d.length := by
  induction d with
  | nil => simp [akeys] at h
  | cons hd tl ih =>
      rcases hd with ⟨k', v'⟩
      by_cases h1 : k' = k
      · subst h1
        simp [ainsert]
      · simp only [akeys, List.map_cons, List.mem_cons] at h
        rcases h with h2 | h2
        · exact absurd h2.symm h1
        · simp only [ainsert, if_neg h1, List.length_cons, ih h2]

theorem length_ainsert_not_mem {κ α : Type} [DecidableEq κ]
    {d : List (κ × α)} {k : κ} (v : α) (h : k ∉ akeys d) :
    (ainsert d k v).length = d.length + 1 := by
  induction d with
  | nil => simp [ainsert]
  | cons hd tl ih =>
      rcases hd with ⟨k', v'⟩
      simp only [akeys, List.map_cons, List.mem_cons] at h
      push_neg at h
      simp only [ainsert, if_neg (Ne.symm h.1), List.length_cons, ih h.2]

theorem alookup_isSome_iff {κ α : Type} [DecidableEq κ]
    (d : List (κ × α)) (key : κ) :
    (alookup d key).isSome ↔ key ∈ akeys d := by
  induction d with
  | nil => simp [alookup, akeys]
  | cons hd tl ih =>
      rcases hd with ⟨k', v'⟩
      by_cases h1 : k' = key
      · subst h1
        simp [alookup, akeys]
      · simp only [alookup, if_neg h1, akeys, List.map_cons, List.mem_cons,
          ih]
        constructor
        · exact Or.inr
        · rintro (h2 | h2)
          · exact absurd h2.symm h1
          · exact h2

theorem alookup_eq_none_iff {κ α : Type} [DecidableEq κ]
    (d : List (κ × α)) (key : κ) :
    alookup d key = none ↔ key ∉ akeys d := by
  rw [← alookup_isSome_iff]
  cases alookup d key <;> simp

/-! ## Registry lemmas (C1) -/

/-- After `get_link_id`, the pair is recorded with the returned ID. -/
theorem get_link_id_records (r : InnovationRecord) (a b : ℕ) :
    alookup (r.get_link_id a b).2.links_record (a, b) =
      some (r.get_link_id a b).1 := by
  unfold InnovationRecord.get_link_id
  cases h : alookup r.links_record (a, b) with
  | some v => simp [h]
  | none => simp [h, alookup_ainsert]

/-- A recorded pair determines the result of `get_link_id`. -/
theorem get_link_id_of_recorded {r : InnovationRecord} {a b v : ℕ}
    (h : alookup r.links_record (a, b) = some v) :
    (r.get_link_id a b).1 = v := by
  unfold InnovationRecord.get_link_id
  simp [h]

/-- After `get_node_id`, the split link is recorded with the returned
ID. -/
theorem get_node_id_records (r : InnovationRecord) (l : ℕ) :
    alookup (r.get_node_id l).2.nodes_record l =
      some (r.get_node_id l).1 := by
  unfold InnovationRecord.get_node_id
  cases h : alookup r.nodes_record l with
  | some v => simp [h]
  | none => simp [h, alookup_ainsert]

/-- A recorded split determines the result of `get_node_id`. -/
theorem get_node_id_of_recorded {r : InnovationRecord} {l v : ℕ}
    (h : alookup r.nodes_record l = some v) : (r.get_node_id l).1 = v := by
  unfold InnovationRecord.get_node_id
  simp [h]

/-- Every registry operation preserves recorded link IDs. -/
theorem links_record_applyOp {r : InnovationRecord} {k : ℕ × ℕ} {v : ℕ}
    (op : InnovOp) (h : alookup r.links_record k = some v) :
    alookup (applyInnovOp r op).links_record k = some v := by
  cases op with
  | getLink a b =>
      cases h2 : alookup r.links_record (a, b) with
      | some w =>
          simpa [applyInnovOp, InnovationRecord.get_link_id, h2] using h
      | none =>
          have hne : (a, b) ≠ k := by
            intro he
            rw [he, h] at h2
            exact Option.noConfusion h2
          simp [applyInnovOp, InnovationRecord.get_link_id, h2,
            alookup_ainsert, hne, h]
  | getNode l =>
      cases h2 : alookup r.nodes_record l with
      | some w =>
          simpa [applyInnovOp, InnovationRecord.get_node_id, h2] using h
      | none =>
          simpa [applyInnovOp, InnovationRecord.get_node_id, h2] using h
  | getSpecies =>
      simpa [applyInnovOp, InnovationRecord.get_species_id] using h
  | getGenome =>
      simpa [applyInnovOp, InnovationRecord.get_genome_id] using h

/-- Every registry operation preserves recorded node IDs. -/
theorem nodes_record_applyOp {r : InnovationRecord} {k v : ℕ}
    (op : InnovOp) (h : alookup r.nodes_record k = some v) :
    alookup (applyInnovOp r op).nodes_record k = some v := by
  cases op with
  | getLink a b =>
      cases h2 : alookup r.links_record (a, b) with
      | some w =>
          simpa [applyInnovOp, InnovationRecord.get_link_id, h2] using h
      | none =>
          simpa [applyInnovOp, InnovationRecord.get_link_id, h2] using h
  | getNode l =>
      cases h2 : alookup r.nodes_record l with
      | some w =>
          simpa [applyInnovOp, InnovationRecord.get_node_id, h2] using h
      | none =>
          have hne : l ≠ k := by
            intro he
            rw [he, h] at h2
            exact Option.noConfusion h2
          simp [applyInnovOp, InnovationRecord.get_node_id, h2,
            alookup_ainsert, hne, h]
  | getSpecies =>
      simpa [applyInnovOp, InnovationRecord.get_species_id] using h
  | getGenome =>
      simpa [applyInnovOp, InnovationRecord.get_genome_id] using h

/-- Any sequence of registry operations preserves recorded link IDs. -/
theorem links_record_runOps {r : InnovationRecord} {k : ℕ × ℕ} {v : ℕ}
    (ops : List InnovOp) (h : alookup r.links_record k = some v) :
    alookup (runInnovOps r ops).links_record k = some v := by
  induction ops generalizing r with
  | nil => exact h
  | cons op ops ih => exact ih (links_record_applyOp op h)

/-- Any sequence of registry operations preserves recorded node IDs. -/
theorem nodes_record_runOps {r : InnovationRecord} {k v : ℕ}
    (ops : List InnovOp) (h : alookup r.nodes_record k = some v) :
    alookup (runInnovOps r ops).nodes_record k = some v := by
  induction ops generalizing r with
  | nil => exact h
  | cons op ops ih => exact ih (nodes_record_applyOp op h)

/-- The freshness invariant of the node side of the registry: the counter
never drops below `base`, and every recorded node ID is at least
`base`. -/
def NodeFreshInv (base : ℕ) (r : InnovationRecord) : Prop :=
  base ≤ r.nodes_counter ∧ ∀ kv ∈ r.nodes_record, base ≤ kv.2

theorem nodeFreshInv_applyOp {base : ℕ} {r : InnovationRecord}
    (op : InnovOp) (h : NodeFreshInv base r) :
    NodeFreshInv base (applyInnovOp r op) := by
  obtain ⟨hc, hr⟩ := h
  cases op with
  | getLink a b =>
      cases h2 : alookup r.links_record (a, b) with
      | some w =>
          simp only [applyInnovOp, InnovationRecord.get_link_id, h2]
          exact ⟨hc, hr⟩
      | none =>
          simp only [applyInnovOp, InnovationRecord.get_link_id, h2]
          exact ⟨hc, hr⟩
  | getNode l =>
      cases h2 : alookup r.nodes_record l with
      | some w =>
          simp only [applyInnovOp, InnovationRecord.get_node_id, h2]
          exact ⟨hc, hr⟩
      | none =>
          simp only [applyInnovOp, InnovationRecord.get_node_id, h2]
          refine ⟨Nat.le_succ_of_le hc, ?_⟩
          intro kv hkv
          rcases mem_ainsert hkv with h3 | h3
          · rw [h3]
            exact hc
          · exact hr kv h3
  | getSpecies => exact ⟨hc, hr⟩
  | getGenome => exact ⟨hc, hr⟩

theorem nodeFreshInv_runOps {base : ℕ} {r : InnovationRecord}
    (ops : List InnovOp) (h : NodeFreshInv base r) :
    NodeFreshInv base (runInnovOps r ops) := by
  induction ops generalizing r with
  | nil => exact h
  | cons op ops ih => exact ih (nodeFreshInv_applyOp op h)

theorem nodeFreshInv_init (i o : ℕ) :
    NodeFreshInv (i + o) (InnovationRecord.init i o) := by
  constructor
  · exact Nat.le_refl _
  · intro kv hkv
    simp [InnovationRecord.init] at hkv

/-- `get_node_id` answers with an ID at least `base` in any state
satisfying the freshness invariant. -/
theorem get_node_id_fresh {base : ℕ} {r : InnovationRecord}
    (h : NodeFreshInv base r) (l : ℕ) : base ≤ (r.get_node_id l).1 := by
  obtain ⟨hc, hr⟩ := h
  unfold InnovationRecord.get_node_id
  cases h2 : alookup r.nodes_record l with
  | some w => exact hr (l, w) (alookup_mem h2)
  | none => exact hc

/-! ## Claim theorems -/

/-- C1: the innovation registry is idempotent per key — a repeated
`get_link_id (a, b)` returns the same link ID no matter which registry
traffic happened in between, and likewise `get_node_id L`; a fresh
registry's node counter is `inputs + outputs`; every node ID handed out in
any reachable registry state is at least `inputs + outputs`, hence never
equal to a fixed input/output node ID (which are `< inputs + outputs`).
All operations are total functions of the state. -/
theorem C1_innovation_registry_idempotent :
    (∀ i o : ℕ, (InnovationRecord.init i o).nodes_counter = i + o)
  ∧ (∀ (r : InnovationRecord) (ops : List InnovOp) (a b : ℕ),
      ((runInnovOps (r.get_link_id a b).2 ops).get_link_id a b).1 =
        (r.get_link_id a b).1)
  ∧ (∀ (r : InnovationRecord) (ops : List InnovOp) (l : ℕ),
      ((runInnovOps (r.get_node_id l).2 ops).get_node_id l).1 =
        (r.get_node_id l).1)
  ∧ (∀ (i o : ℕ) (ops : List InnovOp) (l fixedId : ℕ),
      i + o ≤ ((runInnovOps (InnovationRecord.init i o) ops).get_node_id l).1
      ∧ (fixedId < i + o →
        ((runInnovOps (InnovationRecord.init i o) ops).get_node_id l).1
          ≠ fixedId)) := by
  refine ⟨fun i o => rfl, ?_, ?_, ?_⟩
  · intro r ops a b
    exact get_link_id_of_recorded
      (links_record_runOps ops (get_link_id_records r a b))
  · intro r ops l
    exact get_node_id_of_recorded
      (nodes_record_runOps ops (get_node_id_records r l))
  · intro i o ops l fixedId
    have hfresh := get_node_id_fresh
      (nodeFreshInv_runOps ops (nodeFreshInv_init i o)) l
    exact ⟨hfresh, fun hlt heq => by omega⟩

/-- C1 witness: in a 1-input/1-output registry, the link `(0, 1)` keeps
its ID across interleaved traffic, a split node ID is at least 2, and it
differs from the fixed node IDs 0 and 1. -/
theorem C1_innovation_registry_idempotent_witness :
    ((runInnovOps ((InnovationRecord.init 1 1).get_link_id 0 1).2
        [.getNode 0, .getGenome, .getLink 3 4]).get_link_id 0 1).1 =
      ((InnovationRecord.init 1 1).get_link_id 0 1).1
    ∧ 1 + 1 ≤ ((runInnovOps (InnovationRecord.init 1 1)
        [.getLink 0 1]).get_node_id 0).1
    ∧ ((runInnovOps (InnovationRecord.init 1 1)
        [.getLink 0 1]).get_node_id 0).1 ≠ 1 := by
  refine ⟨C1_innovation_registry_idempotent.2.1 _ _ 0 1,
    (C1_innovation_registry_idempotent.2.2.2 1 1 [.getLink 0 1] 0 1).1,
    (C1_innovation_registry_idempotent.2.2.2 1 1 [.getLink 0 1] 0 1).2
      (by decide)⟩

/-- C2: the claimed invariant — in feed-forward mode every sequence of
`mutate` passes keeps the enabled-link subgraph acyclic — fails on the
code.  Starting from the default 1-input/1-output genome (acyclic), the
five-pass sequence `c2step1 … c2step5` (split link 0, split link 2,
delete link 3, add link 3→2, split the disabled link 2 again) ends with
the enabled links containing both `2 → 3` and `3 → 2`: a cycle. -/
theorem C2_mutation_creates_enabled_cycle :
    isAcyclic (enabledEdges startState.1) = true
    ∧ (2, 3) ∈ enabledEdges c2step5.1
    ∧ (3, 2) ∈ enabledEdges c2step5.1
    ∧ isAcyclic (enabledEdges c2step5.1) = false := by
  refine ⟨by decide, by decide, by decide, by decide⟩

/-- The heap for the C3 scenario: one node object with bias 0. -/
def c3Heap : GeneHeap := ⟨[⟨0, NodeType.hidden, 0, 0, 0, 0⟩], []⟩

/-- The parent genome of the C3 scenario: its node map sends key 0 to the
single heap object. -/
def c3Parent : RefGenome := ⟨0, [(0, 0)], []⟩

/-- A registry state in which the parent's genome ID 0 is already taken. -/
def c3Innov : InnovationRecord := ⟨2, [], 1, [((0, 1), 0)], 0, 1⟩

/-- The child produced by the non-crossover branch of `reproduce`:
`copy.copy` of the parent's maps — same heap references. -/
def c3Child : RefGenome := (reproduceCopyChild c3Parent c3Innov).1

/-- The heap after `child.mutate()` applies a bias jitter of +1 to the
child's (shared) node object. -/
def c3HeapAfter : GeneHeap :=
  heapMutateAttrs testParams c3Heap c3Child
    [⟨true, 1, false, 0, false, 0, false, 0⟩] []

/-- C3: the claim — the copy-parent branch of `reproduce` produces node
and link maps sharing no mutable gene objects with the parent, so the
parent's attributes survive `child.mutate()` unchanged — fails on the
code.  `copy.copy(parent1.nodes)` copies only the dict, so after the
child's bias mutation the *parent's* node, read through its own map, has
bias 1 instead of 0, even though the child is a distinct genome (fresh
ID). -/
theorem C3_copy_branch_aliases_parent :
    c3Child.id ≠ c3Parent.id
    ∧ readNode c3Heap c3Parent 0 = some ⟨0, NodeType.hidden, 0, 0, 0, 0⟩
    ∧ readNode c3HeapAfter c3Parent 0 =
        some ⟨0, NodeType.hidden, 1, 0, 0, 0⟩ := by
  refine ⟨by decide, by decide, ?_⟩
  norm_num [readNode, c3HeapAfter, heapMutateAttrs, c3Child, c3Parent,
    c3Heap, c3Innov, reproduceCopyChild, InnovationRecord.get_genome_id,
    Genome.mutate_node, alookup, clamp, testParams, NodeRand.none]

/-- Folding key-preserving inserts over a duplicate-free list appends its
keys to the accumulator's keys, in order. -/
theorem akeys_foldl_ainsert {γ γ' : Type} (f : (ℕ × γ) → γ') :
    ∀ (l : List (ℕ × γ)) (acc : List (ℕ × γ')),
      (akeys l).Nodup → (∀ k ∈ akeys l, k ∉ akeys acc) →
      akeys (l.foldl (fun acc kv => ainsert acc kv.1 (f kv)) acc) =
        akeys acc ++ akeys l := by
  intro l
  induction l with
  | nil => intro acc _ _; simp [akeys]
  | cons kv tl ih =>
      intro acc hnd hdisj
      have hk : kv.1 ∉ akeys acc :=
        hdisj kv.1 (by simp [akeys])
      have hnd' : (akeys tl).Nodup := by
        simpa [akeys] using hnd.of_cons
      have hhead : kv.1 ∉ akeys tl := by
        have := hnd
        simp only [akeys, List.map_cons] at this
        simpa [akeys] using this.not_mem
      have hdisj' : ∀ k ∈ akeys tl, k ∉ akeys (ainsert acc kv.1 (f kv)) := by
        intro k hkmem
        rw [akeys_ainsert_not_mem (f kv) hk]
        intro hmem
        rcases List.mem_append.mp hmem with h1 | h1
        · exact hdisj k (List.mem_cons.mpr (Or.inr hkmem)) h1
        · have : k = kv.1 := by simpa using h1
          exact hhead (this ▸ hkmem)
      calc akeys ((kv :: tl).foldl
            (fun acc kv => ainsert acc kv.1 (f kv)) acc)
          = akeys (tl.foldl (fun acc kv => ainsert acc kv.1 (f kv))
              (ainsert acc kv.1 (f kv))) := by simp
        _ = akeys (ainsert acc kv.1 (f kv)) ++ akeys tl :=
            ih _ hnd' hdisj'
        _ = (akeys acc ++ [kv.1]) ++ akeys tl := by
            rw [akeys_ainsert_not_mem (f kv) hk]
        _ = akeys acc ++ akeys (kv :: tl) := by
            simp [akeys]

/-- The crossover gene-map fold preserves the primary parent's key list
exactly. -/
theorem akeys_crossoverMap {γ : Type} (combine : γ → γ → ℕ → γ)
    (primary secondary : List (ℕ × γ)) (hnd : (akeys primary).Nodup) :
    akeys (Genome.crossoverMap combine primary secondary) = akeys primary := by
  unfold Genome.crossoverMap
  have := akeys_foldl_ainsert
    (fun kv : ℕ × γ =>
      match alookup secondary kv.1 with
      | some g2 => combine kv.2 g2 kv.1
      | none => kv.2)
    primary [] hnd (by intro k _; simp [akeys])
  simpa [akeys] using this

/-- C4: `crossover` designates the fitter parent primary with ties going
to the receiver, the child's node and link key lists are exactly the
primary's (genes private to the secondary are never inherited), and the
child carries the fresh genome ID taken from the shared registry, whose
genome counter advances by one. -/
theorem C4_crossover_primary_parent (p : GenomeParams) (a b : Genome)
    (innov : InnovationRecord) (pickL pickN : ℕ → ℕ → Bool)
    (traitDraws : ℕ → ℚ × ℚ)
    (hndN : (akeys (Genome.primaryParent a b).nodes).Nodup)
    (hndL : (akeys (Genome.primaryParent a b).links).Nodup)
    (hnonempty : (Genome.primaryParent a b).nodes ≠ []) :
    akeys (Genome.crossover p a b innov pickL pickN traitDraws).1.nodes =
      akeys (Genome.primaryParent a b).nodes
    ∧ akeys (Genome.crossover p a b innov pickL pickN traitDraws).1.links =
      akeys (Genome.primaryParent a b).links
    ∧ (Genome.crossover p a b innov pickL pickN traitDraws).1.id =
      innov.genomes_counter
    ∧ (Genome.crossover p a b innov pickL pickN
        traitDraws).2.genomes_counter = innov.genomes_counter + 1
    ∧ (a.fitness = b.fitness → Genome.primaryParent a b = a) := by
  have hN := akeys_crossoverMap
    (fun n1 n2 k => Node.crossover n1 n2 (pickN k))
    (Genome.primaryParent a b).nodes (Genome.secondaryParent a b).nodes hndN
  have hL := akeys_crossoverMap
    (fun l1 l2 k => Link.crossover l1 l2 (pickL k))
    (Genome.primaryParent a b).links (Genome.secondaryParent a b).links hndL
  have hne : ¬(Genome.crossoverMap
      (fun n1 n2 k => Node.crossover n1 n2 (pickN k))
      (Genome.primaryParent a b).nodes
      (Genome.secondaryParent a b).nodes = []
    ∧ Genome.crossoverMap
      (fun l1 l2 k => Link.crossover l1 l2 (pickL k))
      (Genome.primaryParent a b).links
      (Genome.secondaryParent a b).links = []) := by
    rintro ⟨h1, -⟩
    apply hnonempty
    have : akeys (Genome.primaryParent a b).nodes = [] := by
      rw [← hN, h1]
      rfl
    simpa [akeys] using this
  refine ⟨?_, ?_, ?_, ?_, ?_⟩
  · simp only [Genome.crossover, InnovationRecord.get_genome_id,
      if_neg hne]
    exact hN
  · simp only [Genome.crossover, InnovationRecord.get_genome_id,
      if_neg hne]
    exact hL
  · simp only [Genome.crossover, InnovationRecord.get_genome_id,
      if_neg hne]
  · simp only [Genome.crossover, InnovationRecord.get_genome_id,
      if_neg hne]
  · intro heq
    simp [Genome.primaryParent, heq]

/-- C4 witness: a 3-fitness parent crossed with a 5-fitness parent — the
primary is the second one; the child keeps exactly its keys and takes the
registry's next genome ID. -/
theorem C4_crossover_primary_parent_witness :
    akeys ((Genome.crossover testParams
        ⟨10, 3, [(0, ⟨0, NodeType.input, 0, 0, 0, 0⟩)],
          [(0, ⟨0, 0, 1, 1, true, false⟩)]⟩
        ⟨11, 5, [(0, ⟨0, NodeType.input, 0, 0, 0, 0⟩),
          (1, ⟨1, NodeType.output, 0, 0, 0, 0⟩)], []⟩
        c3Innov (fun _ _ => true) (fun _ _ => false) zeroDraws).1).nodes =
      [0, 1] := by
  have h := C4_crossover_primary_parent testParams
    ⟨10, 3, [(0, ⟨0, NodeType.input, 0, 0, 0, 0⟩)],
      [(0, ⟨0, 0, 1, 1, true, false⟩)]⟩
    ⟨11, 5, [(0, ⟨0, NodeType.input, 0, 0, 0, 0⟩),
      (1, ⟨1, NodeType.output, 0, 0, 0, 0⟩)], []⟩
    c3Innov (fun _ _ => true) (fun _ _ => false) zeroDraws
    (by decide) (by decide) (by decide)
  calc akeys ((Genome.crossover testParams _ _ c3Innov _ _ zeroDraws).1).nodes
      = akeys (Genome.primaryParent
          ⟨10, 3, [(0, ⟨0, NodeType.input, 0, 0, 0, 0⟩)],
            [(0, ⟨0, 0, 1, 1, true, false⟩)]⟩
          ⟨11, 5, [(0, ⟨0, NodeType.input, 0, 0, 0, 0⟩),
            (1, ⟨1, NodeType.output, 0, 0, 0, 0⟩)], []⟩).nodes := h.1
    _ = [0, 1] := by decide

/-! ## Counting lemmas for the genome distance (C5) -/

theorem filter_key_eq_nil {γ : Type} {d : List (ℕ × γ)} {k : ℕ}
    (h : k ∉ akeys d) : d.filter (fun kv => kv.1 = k) = [] := by
  induction d with
  | nil => rfl
  | cons hd tl ih =>
      simp only [akeys, List.map_cons, List.mem_cons] at h
      push_neg at h
      simp only [List.filter_cons, decide_eq_true_eq,
        if_neg (Ne.symm h.1)]
      exact ih (by simpa [akeys] using h.2)

theorem length_filter_key {γ : Type} :
    ∀ (d : List (ℕ × γ)) (k : ℕ), (akeys d).Nodup →
      (d.filter (fun kv => kv.1 = k)).length =
        if (alookup d k).isSome then 1 else 0 := by
  intro d
  induction d with
  | nil => intro k _; rfl
  | cons hd tl ih =>
      intro k hnd
      have hk : hd.1 ∉ akeys tl := by
        simp only [akeys, List.map_cons] at hnd
        simpa [akeys] using hnd.not_mem
      have hnd' : (akeys tl).Nodup := by
        simp only [akeys, List.map_cons] at hnd
        simpa [akeys] using hnd.of_cons
      by_cases he : hd.1 = k
      · subst he
        simp only [List.filter_cons, decide_eq_true_eq, if_pos rfl,
          List.length_cons, alookup, Option.isSome_some, if_pos rfl]
        rw [filter_key_eq_nil hk]
        rfl
      · simp only [List.filter_cons, decide_eq_true_eq, if_neg he,
          alookup, if_neg he]
        exact ih k hnd'

theorem matched_filter_cons {γ γ2 : Type} (d2 : List (ℕ × γ2))
    (kv : ℕ × γ) (tl : List (ℕ × γ)) (h : kv.1 ∉ akeys tl) :
    (d2.filter (fun kv' => (alookup (kv :: tl) kv'.1).isSome)).length =
      (d2.filter (fun kv' => kv'.1 = kv.1)).length +
        (d2.filter (fun kv' => (alookup tl kv'.1).isSome)).length := by
  induction d2 with
  | nil => rfl
  | cons hd dtl ih =>
      by_cases he : hd.1 = kv.1
      · have hnone : alookup tl kv.1 = none :=
          (alookup_eq_none_iff tl kv.1).mpr h
        have hsome : alookup (kv :: tl) kv.1 = some kv.2 := by
          simp [alookup]
        simp [List.filter_cons, hsome, hnone, he, ih]
        try omega
      · have hne : ¬kv.1 = hd.1 := fun h' => he h'.symm
        have hsame : alookup (kv :: tl) hd.1 = alookup tl hd.1 := by
          simp [alookup, hne]
        cases hcase : (alookup tl hd.1).isSome
        all_goals simp [List.filter_cons, hsame, hcase, he, ih]
        all_goals try omega

theorem matched_count_symm {γ1 γ2 : Type} :
    ∀ (d1 : List (ℕ × γ1)) (d2 : List (ℕ × γ2)),
      (akeys d1).Nodup → (akeys d2).Nodup →
      (d1.filter (fun kv => (alookup d2 kv.1).isSome)).length =
        (d2.filter (fun kv => (alookup d1 kv.1).isSome)).length := by
  intro d1
  induction d1 with
  | nil =>
      intro d2 _ _
      simp [alookup, List.filter_cons]
  | cons kv tl ih =>
      intro d2 hnd1 hnd2
      have hk : kv.1 ∉ akeys tl := by
        simp only [akeys, List.map_cons] at hnd1
        simpa [akeys] using hnd1.not_mem
      have hnd1' : (akeys tl).Nodup := by
        simp only [akeys, List.map_cons] at hnd1
        simpa [akeys] using hnd1.of_cons
      rw [matched_filter_cons d2 kv tl hk, length_filter_key d2 kv.1 hnd2,
        ← ih d2 hnd1' hnd2]
      cases hcase : (alookup d2 kv.1).isSome
      all_goals simp [List.filter_cons, hcase]
      all_goals try omega

theorem length_filter_partition {γ γ2 : Type} (d : List (ℕ × γ))
    (e : List (ℕ × γ2)) :
    (d.filter (fun kv => (alookup e kv.1).isSome)).length +
      (d.filter (fun kv => (alookup e kv.1).isNone)).length = d.length := by
  induction d with
  | nil => rfl
  | cons hd tl ih =>
      cases hcase : alookup e hd.1 with
      | some v =>
          have h1 : (hd :: tl).filter (fun kv => (alookup e kv.1).isSome) =
              hd :: tl.filter (fun kv => (alookup e kv.1).isSome) := by
            simp [List.filter_cons, hcase]
          have h2 : (hd :: tl).filter (fun kv => (alookup e kv.1).isNone) =
              tl.filter (fun kv => (alookup e kv.1).isNone) := by
            simp [List.filter_cons, hcase]
          rw [h1, h2, List.length_cons, List.length_cons]
          omega
      | none =>
          have h1 : (hd :: tl).filter (fun kv => (alookup e kv.1).isSome) =
              tl.filter (fun kv => (alookup e kv.1).isSome) := by
            simp [List.filter_cons, hcase]
          have h2 : (hd :: tl).filter (fun kv => (alookup e kv.1).isNone) =
              hd :: tl.filter (fun kv => (alookup e kv.1).isNone) := by
            simp [List.filter_cons, hcase]
          rw [h1, h2, List.length_cons, List.length_cons]
          omega

theorem distanceScan_eq {γ : Type} (dist : γ → γ → ℚ)
    (d1 d2 : List (ℕ × γ)) :
    distanceScan dist d1 d2 =
      (matchedSum dist d1 d2,
       (d1.filter (fun kv => (alookup d2 kv.1).isNone)).length,
       (d1.filter (fun kv => (alookup d2 kv.1).isSome)).length) := by
  have aux : ∀ (l : List (ℕ × γ)) (a : ℚ) (b c : ℕ),
      l.foldl
        (fun acc kv =>
          match alookup d2 kv.1 with
          | some g2 => (acc.1 + dist kv.2 g2, acc.2.1, acc.2.2 + 1)
          | none => (acc.1, acc.2.1 + 1, acc.2.2))
        (a, b, c) =
      (a + matchedSum dist l d2,
       b + (l.filter (fun kv => (alookup d2 kv.1).isNone)).length,
       c + (l.filter (fun kv => (alookup d2 kv.1).isSome)).length) := by
    intro l
    induction l with
    | nil => intro a b c; simp [matchedSum]
    | cons kv tl ih =>
        intro a b c
        cases hcase : alookup d2 kv.1 with
        | some g2 =>
            rw [List.foldl_cons]
            simp only [hcase]
            rw [ih]
            simp [matchedSum, List.filter_cons, hcase, Prod.ext_iff]
            refine ⟨by ring, by omega⟩
        | none =>
            rw [List.foldl_cons]
            simp only [hcase]
            rw [ih]
            simp [matchedSum, List.filter_cons, hcase, Prod.ext_iff]
            omega
  simpa [distanceScan, matchedSum] using aux d1 0 0 0

/-- The per-set distance the code computes equals the amended formula:
matched sum and disjoint term together divided by the larger set size. -/
theorem geneSetDistance_eq_amended {γ : Type} (dist : γ → γ → ℚ)
    (d1 d2 : List (ℕ × γ)) (c : ℚ)
    (h1 : (akeys d1).Nodup) (h2 : (akeys d2).Nodup) :
    geneSetDistance dist d1 d2 c = amendedGeneSetDistance dist d1 d2 c := by
  unfold geneSetDistance amendedGeneSetDistance
  split_ifs with hguard
  · rfl
  · rw [distanceScan_eq]
    have hsym := matched_count_symm d1 d2 h1 h2
    have hpart := length_filter_partition d2 d1
    have hdisj : ((d1.filter
          (fun kv => (alookup d2 kv.1).isNone)).length : ℚ) +
        ((d2.length : ℚ) -
          (d1.filter (fun kv => (alookup d2 kv.1).isSome)).length) =
        (disjointCount d1 d2 : ℚ) := by
      unfold disjointCount
      push_cast
      rw [hsym]
      have : ((d2.filter (fun kv => (alookup d1 kv.1).isSome)).length : ℚ)
          + ((d2.filter (fun kv => (alookup d1 kv.1).isNone)).length : ℚ)
          = (d2.length : ℚ) := by
        exact_mod_cast congrArg (Nat.cast (R := ℚ)) hpart
      linarith
    have : matchedSum dist d1 d2 + c *
        (((d1.filter (fun kv => (alookup d2 kv.1).isNone)).length : ℚ) +
          ((d2.length : ℚ) -
            (d1.filter (fun kv => (alookup d2 kv.1).isSome)).length)) =
        matchedSum dist d1 d2 + c * (disjointCount d1 d2 : ℚ) := by
      rw [hdisj]
    simpa using congrArg
      (fun x => x / max (d1.length : ℚ) (d2.length : ℚ)) this

/-- `Node.distance` computes the spec's per-attribute formula. -/
theorem node_distance_eq_attr : Node.distance = nodeAttrDistance := by
  funext n1 n2
  simp only [Node.distance, nodeAttrDistance]
  split_ifs <;> ring

/-- `Link.distance` computes the spec's per-attribute formula. -/
theorem link_distance_eq_attr : Link.distance = linkAttrDistance := by
  funext l1 l2
  simp only [Link.distance, linkAttrDistance]
  split_ifs <;> ring

/-- Two genomes with the same two node IDs whose node 0 differs in bias by
1 (no links): the code's distance is ½, the claim's formula gives 1. -/
def c5GenomeA : Genome :=
  ⟨0, 0, [(0, ⟨0, NodeType.hidden, 1, 0, 0, 0⟩),
          (1, ⟨1, NodeType.hidden, 0, 0, 0, 0⟩)], []⟩

/-- See `c5GenomeA`. -/
def c5GenomeB : Genome :=
  ⟨1, 0, [(0, ⟨0, NodeType.hidden, 0, 0, 0, 0⟩),
          (1, ⟨1, NodeType.hidden, 0, 0, 0, 0⟩)], []⟩

/-- Disjoint coefficient 1. -/
def c5Params : SpeciationParams := ⟨1⟩

/-- C5 counterexample: the genome distance does *not* equal the claim's
formula in which only the disjoint term is divided by the larger set size
— the code divides the matched sum as well (here: ½ versus 1). -/
theorem C5_distance_counterexample :
    get_genomes_distance c5GenomeA c5GenomeB c5Params ≠
      claimGenomesDistance c5GenomeA c5GenomeB c5Params := by
  have hcode : get_genomes_distance c5GenomeA c5GenomeB c5Params = 1 / 2 := by
    norm_num [get_genomes_distance, geneSetDistance, distanceScan,
      c5GenomeA, c5GenomeB, c5Params, alookup, Node.distance,
      Link.distance, List.foldl]
  have hclaim : claimGenomesDistance c5GenomeA c5GenomeB c5Params = 1 := by
    norm_num [claimGenomesDistance, claimGeneSetDistance, matchedSum,
      disjointCount, c5GenomeA, c5GenomeB, c5Params, alookup,
      nodeAttrDistance, linkAttrDistance, List.filter_cons]
  rw [hcode, hclaim]
  norm_num

/-- C5 amended: the genome distance is node-set distance plus link-set
distance where each set's distance is `(Σ matched per-attribute
differences + coefficient · disjoint count) / max(set sizes)` — the
*whole* sum is divided by the larger set size, not only the disjoint
term (and an empty pair of sets contributes 0). -/
theorem C5_distance_whole_sum_divided (genome1 genome2 : Genome)
    (params : SpeciationParams)
    (h1 : (akeys genome1.nodes).Nodup) (h2 : (akeys genome2.nodes).Nodup)
    (h3 : (akeys genome1.links).Nodup) (h4 : (akeys genome2.links).Nodup) :
    get_genomes_distance genome1 genome2 params =
      amendedGeneSetDistance nodeAttrDistance genome1.nodes genome2.nodes
        params.compatibility_disjoint_coefficient
      + amendedGeneSetDistance linkAttrDistance genome1.links genome2.links
        params.compatibility_disjoint_coefficient := by
  unfold get_genomes_distance
  rw [geneSetDistance_eq_amended Node.distance genome1.nodes genome2.nodes
      params.compatibility_disjoint_coefficient h1 h2,
    geneSetDistance_eq_amended Link.distance genome1.links genome2.links
      params.compatibility_disjoint_coefficient h3 h4,
    node_distance_eq_attr, link_distance_eq_attr]

/-- C5 witness: at the concrete pair `c5GenomeA`/`c5GenomeB` the amended
formula evaluates to the code's answer ½. -/
theorem C5_distance_whole_sum_divided_witness :
    get_genomes_distance c5GenomeA c5GenomeB c5Params =
      amendedGeneSetDistance nodeAttrDistance c5GenomeA.nodes
        c5GenomeB.nodes c5Params.compatibility_disjoint_coefficient
      + amendedGeneSetDistance linkAttrDistance c5GenomeA.links
        c5GenomeB.links c5Params.compatibility_disjoint_coefficient
    ∧ get_genomes_distance c5GenomeA c5GenomeB c5Params = 1 / 2 :=
  ⟨C5_distance_whole_sum_divided c5GenomeA c5GenomeB c5Params
    (by decide) (by decide) (by decide) (by decide), by
      norm_num [get_genomes_distance, geneSetDistance, distanceScan,
        c5GenomeA, c5GenomeB, c5Params, alookup, Node.distance,
        Link.distance, List.foldl]⟩

/-- The species used in the C6 counterexample: previous fitness 4,
stagnant counter 5, one genome of fitness 4 (so the new species fitness is
again 4: no improvement). -/
def c6Species : Species :=
  ⟨⟨0, ⟨0, 0, [], []⟩, 0, 4, 5⟩, [⟨0, 4, [], []⟩]⟩

/-- C6 counterexample: when the new species fitness exactly equals the
previously recorded one — i.e. it fails to improve — the code *resets*
the stagnant counter to 0 instead of incrementing it to 6. -/
theorem C6_stagnation_counterexample :
    (Species.update_adjusted_fitness c6Species).1 =
      c6Species.info.previous_fitness
    ∧ c6Species.info.stagnant = 5
    ∧ (Species.update_adjusted_fitness c6Species).2.info.stagnant = 0 := by
  refine ⟨?_, rfl, ?_⟩ <;>
    norm_num [Species.update_adjusted_fitness, Species.fitness,
      Species.size, Genome.fitness, c6Species]

/-- C6 amended: after recording, the stagnant counter increments by one
exactly when the new species fitness is *strictly below* the previous
one, and resets to zero exactly when the new value is greater than or
equal (so an exactly-equal value counts as an improvement); the new value
is then recorded as the species fitness. -/
theorem C6_stagnation_strict_decrease (s : Species) :
    ((s.update_adjusted_fitness).2.info.stagnant = s.info.stagnant + 1 ↔
      (s.update_adjusted_fitness).1 < s.info.previous_fitness)
    ∧ ((s.update_adjusted_fitness).2.info.stagnant = 0 ↔
      s.info.previous_fitness ≤ (s.update_adjusted_fitness).1)
    ∧ (s.update_adjusted_fitness).2.info.previous_fitness =
      (s.update_adjusted_fitness).1 := by
  have hdef : (s.update_adjusted_fitness).2.info.stagnant =
      if (s.update_adjusted_fitness).1 < s.info.previous_fitness then
        s.info.stagnant + 1
      else 0 := by
    simp [Species.update_adjusted_fitness, Species.fitness]
  have hrec : (s.update_adjusted_fitness).2.info.previous_fitness =
      (s.update_adjusted_fitness).1 := by
    simp [Species.update_adjusted_fitness]
  refine ⟨?_, ?_, hrec⟩
  · rw [hdef]
    split_ifs with h
    · exact iff_of_true rfl h
    · exact iff_of_false not_false h
  · rw [hdef]
    split_ifs with h
    · exact iff_of_false not_false (not_le.mpr h)
    · exact iff_of_true rfl (not_lt.mp h)

/-! ## The add-node mutation (C7) -/

theorem mem_of_pickIdx {α : Type} {xs : List α} {i : ℕ} {a : α}
    (h : pickIdx xs i = some a) : a ∈ xs := by
  unfold pickIdx at h
  exact List.getElem?_mem h

/-- The IDs the registry hands out during one link split: the split node
ID, then the ID of the `in(L) → new` link, then the ID of the
`new → out(L)` link. -/
def addNodeIds (innov : InnovationRecord) (L : Link) : ℕ × ℕ × ℕ :=
  let (nid, i1) := innov.get_node_id L.id
  let (l1id, i2) := i1.get_link_id L.in_node nid
  let (l2id, _) := i2.get_link_id nid L.out_node
  (nid, l1id, l2id)

/-- A 1-input/1-output genome whose only link `0 → 1` (weight 0.7) is
*disabled*. -/
def c7Disabled : Genome :=
  ⟨1, 0, [(0, ⟨0, NodeType.input, 0, 0, 0, 0⟩),
          (1, ⟨1, NodeType.output, 0, 0, 0, 0⟩)],
   [(0, ⟨0, 0, 1, 7/10, false, false⟩)]⟩

/-- The same genome with the link *enabled*. -/
def c7Enabled : Genome :=
  ⟨1, 0, [(0, ⟨0, NodeType.input, 0, 0, 0, 0⟩),
          (1, ⟨1, NodeType.output, 0, 0, 0, 0⟩)],
   [(0, ⟨0, 0, 1, 7/10, true, false⟩)]⟩

/-- A registry in which the pair `(0, 1)` already has link ID 0 and node
IDs 0, 1 are reserved. -/
def c7Innov : InnovationRecord := ⟨2, [], 1, [((0, 1), 0)], 0, 2⟩

/-- C7 counterexample: the claim says the add-node mutation picks a
uniformly random *enabled* link, but `get_random_value(self.links)` draws
from all links: on a genome whose only link is disabled, the code still
splits it (three nodes afterwards), while the enabled-only reading
(`addNodeEnabledOnly`) must leave the genome unchanged (two nodes). -/
theorem C7_add_node_counterexample :
    (avalues c7Disabled.links).map Link.enabled = [false]
    ∧ (Genome.mutate_add_node testParams c7Disabled c7Innov 0
        (0, 0)).1.nodes.length = 3
    ∧ (Genome.addNodeEnabledOnly testParams c7Disabled c7Innov 0
        (0, 0)).1.nodes.length = 2
    ∧ Genome.mutate_add_node testParams c7Disabled c7Innov 0 (0, 0) ≠
      Genome.addNodeEnabledOnly testParams c7Disabled c7Innov 0 (0, 0) := by
  refine ⟨by decide, by decide, by decide, fun h => ?_⟩
  have h3 : (Genome.mutate_add_node testParams c7Disabled c7Innov 0
      (0, 0)).1.nodes.length =
      (Genome.addNodeEnabledOnly testParams c7Disabled c7Innov 0
      (0, 0)).1.nodes.length := by rw [h]
  revert h3
  decide

/-- C7 amended: when the add-node mutation fires on a genome with links,
it splits the *drawn link L, enabled or not*: L's entry is disabled in
place, the split node comes from `get_node_id(L.id)` and is stored in the
node map, and two enabled links are added — `in(L) → new` with weight 1
and `new → out(L)` with weight `L.weight` — so when the two link IDs are
new to the genome the link count grows by exactly 2. -/
theorem C7_add_node_splits_any_link (p : GenomeParams) (g : Genome)
    (innov : InnovationRecord) (idx : ℕ) (draws : ℚ × ℚ) (L : Link)
    (hpick : pickIdx (avalues g.links) idx = some L)
    (hkeys : ∀ kl ∈ g.links, kl.2.id = kl.1)
    (hf1 : (addNodeIds innov L).2.1 ∉ akeys g.links)
    (hf2 : (addNodeIds innov L).2.2 ∉ akeys g.links)
    (hf3 : (addNodeIds innov L).2.2 ≠ (addNodeIds innov L).2.1) :
    alookup (Genome.mutate_add_node p g innov idx draws).1.links L.id =
      some L.disable
    ∧ alookup (Genome.mutate_add_node p g innov idx draws).1.links
        (addNodeIds innov L).2.1 =
      some ⟨(addNodeIds innov L).2.1, L.in_node, (addNodeIds innov L).1,
        1, true, false⟩
    ∧ alookup (Genome.mutate_add_node p g innov idx draws).1.links
        (addNodeIds innov L).2.2 =
      some ⟨(addNodeIds innov L).2.2, (addNodeIds innov L).1, L.out_node,
        L.weight, true, false⟩
    ∧ alookup (Genome.mutate_add_node p g innov idx draws).1.nodes
        (addNodeIds innov L).1 =
      some (Genome.default_node p (addNodeIds innov L).1 NodeType.hidden
        draws)
    ∧ (Genome.mutate_add_node p g innov idx draws).1.links.length =
      g.links.length + 2 := by
  have hmem : L.id ∈ akeys g.links := by
    rcases List.mem_map.mp (mem_of_pickIdx hpick) with ⟨kl, hkl, hsnd⟩
    have hid : L.id = kl.1 := by rw [← hsnd, hkeys kl hkl]
    rw [hid]
    exact List.mem_map.mpr ⟨kl, hkl, rfl⟩
  have hne1 : (addNodeIds innov L).2.1 ≠ L.id := fun he => hf1 (he ▸ hmem)
  have hne2 : (addNodeIds innov L).2.2 ≠ L.id := fun he => hf2 (he ▸ hmem)
  simp only [Genome.mutate_add_node, hpick, Genome.splitLink,
    Genome.create_new_node, Genome.create_new_link, Genome.default_node,
    addNodeIds] at *
  refine ⟨?_, ?_, ?_, ?_, ?_⟩
  · rw [alookup_ainsert, if_neg hne2, alookup_ainsert, if_neg hne1,
      alookup_ainsert, if_pos rfl]
  · rw [alookup_ainsert, if_neg hf3, alookup_ainsert, if_pos rfl]
  · rw [alookup_ainsert, if_pos rfl]
  · rw [alookup_ainsert, if_pos rfl]
  · rw [length_ainsert_not_mem, length_ainsert_not_mem,
      length_ainsert_mem _ hmem]
    · rw [akeys_ainsert_mem _ hmem]
      exact hf1
    · rw [akeys_ainsert_not_mem _
        (by rw [akeys_ainsert_mem _ hmem]; exact hf1),
        akeys_ainsert_mem _ hmem]
      intro hin
      rcases List.mem_append.mp hin with h1 | h1
      · exact hf2 h1
      · exact hf3 (by simpa using h1)

/-- C7 witness: splitting the enabled weight-0.7 link `0 → 1` disables it
and yields links `0 → 2` of weight 1.0 and `2 → 1` of weight 0.7, a link
count of 3, and hidden node 2. -/
theorem C7_add_node_splits_any_link_witness :
    alookup (Genome.mutate_add_node testParams c7Enabled c7Innov 0
        (0, 0)).1.links 0 = some ⟨0, 0, 1, 7/10, false, false⟩
    ∧ alookup (Genome.mutate_add_node testParams c7Enabled c7Innov 0
        (0, 0)).1.links 1 = some ⟨1, 0, 2, 1, true, false⟩
    ∧ alookup (Genome.mutate_add_node testParams c7Enabled c7Innov 0
        (0, 0)).1.links 2 = some ⟨2, 2, 1, 7/10, true, false⟩
    ∧ (Genome.mutate_add_node testParams c7Enabled c7Innov 0
        (0, 0)).1.links.length = 3 := by
  have h := C7_add_node_splits_any_link testParams c7Enabled c7Innov 0
    (0, 0) ⟨0, 0, 1, 7/10, true, false⟩ rfl (by decide) (by decide)
    (by decide) (by decide)
  exact ⟨h.1, h.2.1, h.2.2.1, h.2.2.2.2⟩

/-! ## The order of the mutation pass (C8) -/

/-- C8 amended: one `Genome.mutate()` pass is the composition, in source
order, of *delete node*, then *add node*, then add link, then delete
link, then toggle enable — each gated by its own draw — with the
per-node and per-link attribute mutation applied last (so fresh
structural genes are jittered in the same pass). -/
theorem C8_mutation_order (p : GenomeParams) (g : Genome)
    (innov : InnovationRecord) (r : MutateRand) :
    Genome.mutate p g innov r =
      Genome.attrPass p r (Genome.gatedToggle r (Genome.gatedDelLink r
        (Genome.gatedAddLink r (Genome.gatedAddNode p r
          (Genome.gatedDelNode r (g, innov)))))) := by
  rfl

/-- The gate outcomes of the C8 counterexample pass: both the delete-node
and the add-node gates fire. -/
def c8Rand : MutateRand := { delNodeGate := true, addNodeGate := true }

/-- C8 counterexample: the claim's order (add node *before* delete node)
is not the code's.  On the genome of `c2step1` (one hidden node), a pass
with both gates on ends with 3 nodes under the code — delete the hidden
node first, then split the remaining link — but with 2 nodes under the
claimed order, so the two orders are observably different. -/
theorem C8_order_counterexample :
    (Genome.mutate testParams c2step1.1 c2step1.2 c8Rand).1.nodes.length = 3
    ∧ (Genome.mutateClaimedOrder testParams c2step1.1 c2step1.2
        c8Rand).1.nodes.length = 2
    ∧ Genome.mutate testParams c2step1.1 c2step1.2 c8Rand ≠
      Genome.mutateClaimedOrder testParams c2step1.1 c2step1.2 c8Rand := by
  refine ⟨by decide, by decide, fun h => ?_⟩
  have h3 : (Genome.mutate testParams c2step1.1 c2step1.2
      c8Rand).1.nodes.length =
      (Genome.mutateClaimedOrder testParams c2step1.1 c2step1.2
      c8Rand).1.nodes.length := by rw [h]
  revert h3
  decide

/-! ## The stagnation filter (C9) -/

/-- A species with stagnant counter 5 (above any small threshold). -/
def c9Species : Species := ⟨⟨7, ⟨0, 0, [], []⟩, 0, 0, 5⟩, []⟩

/-- C9 counterexample: when every species is stagnant the function raises
— but the exception the source constructs is a `RuntimeError`; the
repository defines no `ExtinctionError` class, so the claim's exception
type is wrong. -/
theorem C9_extinction_type_counterexample :
    filter_stagnant_species [c9Species] 3 = .error extinctionRaise
    ∧ extinctionRaise.className = "RuntimeError"
    ∧ extinctionRaise.className ≠ "ExtinctionError" := by
  refine ⟨rfl, rfl, by decide⟩

/-- C9 amended: `filter_stagnant_species` returns exactly the input
species with `stagnant ≤ max_stagnation`, in order and unmodified, iff at
least one such species exists, and raises a `RuntimeError` (not an
`ExtinctionError`, which the code base does not define) iff every input
species has `stagnant > max_stagnation`. -/
theorem C9_stagnation_filter (species_set : List Species)
    (max_stagnation : ℕ) :
    (filter_stagnant_species species_set max_stagnation =
        .ok (species_set.filter (fun s => s.stagnant ≤ max_stagnation)) ↔
      ∃ s ∈ species_set, s.stagnant ≤ max_stagnation)
    ∧ (filter_stagnant_species species_set max_stagnation =
        .error extinctionRaise ↔
      ∀ s ∈ species_set, max_stagnation < s.stagnant) := by
  have hfil : species_set.filter
      (fun s => ¬(max_stagnation < s.stagnant)) =
      species_set.filter (fun s => s.stagnant ≤ max_stagnation) := by
    apply List.filter_congr
    intro s _
    simp [decide_eq_decide, Nat.not_lt]
  simp only [filter_stagnant_species, hfil]
  by_cases hemp : species_set.filter
      (fun s => s.stagnant ≤ max_stagnation) = []
  · rw [if_pos hemp]
    have hall : ∀ s ∈ species_set, max_stagnation < s.stagnant := by
      intro s hs
      have := List.filter_eq_nil_iff.mp hemp s hs
      simpa [Nat.not_le] using this
    constructor
    · exact iff_of_false (fun h => Except.noConfusion h)
        (by
          rintro ⟨s, hs, hle⟩
          exact absurd (hall s hs) (Nat.not_lt.mpr hle))
    · exact iff_of_true rfl hall
  · rw [if_neg hemp]
    constructor
    · refine iff_of_true rfl ?_
      rcases List.exists_mem_of_ne_nil _ hemp with ⟨s, hs⟩
      rcases List.mem_filter.mp hs with ⟨hmem, hdec⟩
      exact ⟨s, hmem, by simpa using hdec⟩
    · exact iff_of_false (fun h => Except.noConfusion h)
        (fun hall => hemp (List.filter_eq_nil_iff.mpr
          (fun s hs => by simpa [Nat.not_le] using hall s hs)))

/-! ## The add-link rejection rules (C10) -/

/-- C10: once the candidate endpoints are drawn, `mutate_add_link` leaves
the genome and registry unchanged whenever *any* existing link — enabled
or disabled — already realises the pair, and likewise whenever
`creates_cycle` over *all* of the genome's links (disabled ones included)
answers true.  A previously split, now-disabled connection therefore can
never be re-added, and a candidate is rejected even when the only cycle
it would close runs through disabled links. -/
theorem C10_add_link_checks_all_links (g : Genome)
    (innov : InnovationRecord) (inIdx outIdx : ℕ) (iN oN : Node)
    (hin : pickIdx ((avalues g.nodes).filter
        (fun n => n.node_type ≠ NodeType.output)) inIdx = some iN)
    (hout : pickIdx ((avalues g.nodes).filter
        (fun n => n.node_type ≠ NodeType.input)) outIdx = some oN) :
    ((∃ l ∈ avalues g.links, l.simple_link = (iN.id, oN.id)) →
      Genome.mutate_add_link g innov inIdx outIdx = (g, innov))
    ∧ (creates_cycle ((avalues g.links).map Link.simple_link)
        (iN.id, oN.id) = true →
      Genome.mutate_add_link g innov inIdx outIdx = (g, innov)) := by
  simp only [Genome.mutate_add_link, hin, hout]
  constructor
  · rintro ⟨l, hl, hsl⟩
    split_ifs with h1 h2 h3 <;> try rfl
    exact absurd (List.any_eq_true.mpr ⟨l, hl, by simp [hsl]⟩) h2
  · intro h
    split_ifs <;> rfl

/-- The C10 cycle scenario: hidden nodes 2 and 3 joined only by the
*disabled* link `3 → 2`. -/
def c10Cyc : Genome :=
  ⟨2, 0, [(0, ⟨0, NodeType.input, 0, 0, 0, 0⟩),
          (1, ⟨1, NodeType.output, 0, 0, 0, 0⟩),
          (2, ⟨2, NodeType.hidden, 0, 0, 0, 0⟩),
          (3, ⟨3, NodeType.hidden, 0, 0, 0, 0⟩)],
   [(9, ⟨9, 3, 2, 1, false, false⟩)]⟩

/-- A registry for the C10 cycle scenario. -/
def c10Innov : InnovationRecord := ⟨4, [], 10, [((3, 2), 9)], 0, 3⟩

/-- C10 witness: re-adding the *disabled* link `0 → 1` of `c7Disabled` is
rejected (the genome and registry are unchanged), and the candidate
`2 → 3` of `c10Cyc` is rejected because of a cycle that runs entirely
through the disabled link `3 → 2`. -/
theorem C10_add_link_checks_all_links_witness :
    Genome.mutate_add_link c7Disabled c7Innov 0 0 = (c7Disabled, c7Innov)
    ∧ (avalues c10Cyc.links).map Link.enabled = [false]
    ∧ Genome.mutate_add_link c10Cyc c10Innov 1 2 = (c10Cyc, c10Innov) := by
  refine ⟨?_, by decide, ?_⟩
  · exact (C10_add_link_checks_all_links c7Disabled c7Innov 0 0
      ⟨0, NodeType.input, 0, 0, 0, 0⟩ ⟨1, NodeType.output, 0, 0, 0, 0⟩
      rfl rfl).1
      ⟨⟨0, 0, 1, 7/10, false, false⟩, List.mem_singleton.mpr rfl, rfl⟩
  · exact (C10_add_link_checks_all_links c10Cyc c10Innov 1 2
      ⟨2, NodeType.hidden, 0, 0, 0, 0⟩ ⟨3, NodeType.hidden, 0, 0, 0, 0⟩
      rfl rfl).2 rfl

end NeatProc
